import Mathlib

/-!
Shallow embedding of the ob token-transfer service.

The embedding follows the TypeScript source:
* src/synch/ThreadSafeMap.ts — the lock coordinator map (association list,
  JS Map semantics: set overwrites in place, delete removes the key).
* src/db/db.ts — the DB class over the balances and transactions tables.
  SQL UPDATE writes every row matching (address, token); SELECT with a
  WHERE filter keeps table order; ORDER BY tx_ts DESC is an explicit sort
  (insertion-stable on equal timestamps, as ties are unspecified by SQL).
* src/dto — Transfer, Refund, Balance, Transaction records, isValidTransfer.
* src/routes/routes.ts — the POST /transfer handler.

JS numbers carrying token amounts are embedded as Int; tx_ts timestamps
(13-digit Date.now strings, numerically ordered while of equal length)
as Nat.  Fallible steps (a thrown TypeError, a failing commit) are modelled
with Except / an explicit success flag.
-/

namespace OB

/-! ### Lock coordinator: ThreadSafeMap (src/synch/ThreadSafeMap.ts)

The mutex serializes every operation, so each method is a pure function
of the map contents.  JS Map: keys are unique; set overwrites in place. -/

def mapGet {K V : Type} [DecidableEq K] : List (K × V) → K → Option V
  | [], _ => none
  | (k, v) :: rest, key => if k = key then some v else mapGet rest key

def mapSet {K V : Type} [DecidableEq K] : List (K × V) → K → V → List (K × V)
  | [], key, value => [(key, value)]
  | (k, v) :: rest, key, value =>
      if k = key then (k, value) :: rest else (k, v) :: mapSet rest key value

def mapDelete {K V : Type} [DecidableEq K] : List (K × V) → K → List (K × V)
  | [], _ => []
  | (k, v) :: rest, key =>
      if k = key then mapDelete rest key else (k, v) :: mapDelete rest key

/-- ThreadSafeMap.compareAndSetValue: if the key is absent or the compare
predicate accepts the current value, set the key and return true;
otherwise leave the map unchanged and return false. -/
def compareAndSetValue {K V : Type} [DecidableEq K] (m : List (K × V)) (key : K) (value : V)
    (compare : V → Bool) : List (K × V) × Bool :=
  match mapGet m key with
  | none => (mapSet m key value, true)
  | some oldValue =>
      if compare oldValue then (mapSet m key value, true) else (m, false)

/-! ### Data model (src/dto, database tables of doc/README) -/

structure Balance where
  address : String
  token : String
  amount : Int
deriving DecidableEq

structure Transaction where
  tx_ts : Nat
  tx_id : String
  sender : String
  receiver : String
  token : String
  amount : Int
  reverted : Bool
deriving DecidableEq

/-- The durable store: the balances table and the transactions table. -/
structure DBState where
  balances : List Balance
  transactions : List Transaction
deriving DecidableEq

/-- Row match for WHERE address = $1 AND token = $2. -/
def balKey (b : Balance) (address token : String) : Bool :=
  b.address == address && b.token == token

/-- DB.getBalancesForAddressAndToken: SELECT rows for (address, token). -/
def getBalancesForAddressAndToken (balances : List Balance) (address token : String) :
    List Balance :=
  balances.filter (fun b => balKey b address token)

/-- UPDATE balances SET amount = $3 WHERE address = $1 AND token = $2:
every matching row is written. -/
def updateBalance (balances : List Balance) (address token : String) (amount : Int) :
    List Balance :=
  balances.map (fun b => if balKey b address token then { b with amount := amount } else b)

/-- The amount the service reads for (address, token): the first matching
row, if any (the source indexes the SELECT result with [0]). -/
def readBal (balances : List Balance) (address token : String) : Option Int :=
  ((getBalancesForAddressAndToken balances address token).head?).map Balance.amount

/-- DB.transfer: one atomic unit appending the transaction row with
reverted = false and writing the two precomputed balance amounts, then the
two post-commit re-reads returned to the route. -/
def DB.transfer (db : DBState) (tx_ts : Nat) (tx_id : String)
    (tx_sender tx_receiver : String) (tx_amount : Int) (token : String)
    (senderAmount receiverAmount : Int) :
    DBState × Option Balance × Option Balance :=
  let transactions := db.transactions ++
    [⟨tx_ts, tx_id, tx_sender, tx_receiver, token, tx_amount, false⟩]
  let balances :=
    updateBalance (updateBalance db.balances tx_sender token senderAmount)
      tx_receiver token receiverAmount
  (⟨balances, transactions⟩,
   (getBalancesForAddressAndToken balances tx_sender token).head?,
   (getBalancesForAddressAndToken balances tx_receiver token).head?)

/-! ### Revert engine (DB.revertTransactions) -/

/-- Descending insertion by tx_ts; on equal timestamps the inserted
element goes first, so the sort below keeps table (insertion) order for
ties — one of the orders the unspecified SQL tie-breaking permits. -/
def sortDescInsert (t : Transaction) : List Transaction → List Transaction
  | [] => [t]
  | u :: rest => if u.tx_ts ≤ t.tx_ts then t :: u :: rest else u :: sortDescInsert t rest

/-- ORDER BY tx_ts DESC. -/
def sortByTsDesc (l : List Transaction) : List Transaction :=
  l.foldr sortDescInsert []

/-- SELECT ... WHERE reverted = FALSE ORDER BY tx_ts DESC. -/
def pendingTransactions (db : DBState) : List Transaction :=
  sortByTsDesc (db.transactions.filter (fun t => !t.reverted))

/-- The balance writes of one revert iteration: both balances are read
before either is written; none models the TypeError thrown when a SELECT
comes back empty and [0].amount is read. -/
def revertOne (balances : List Balance) (t : Transaction) : Option (List Balance) := do
  let senderBalance ← (getBalancesForAddressAndToken balances t.sender t.token).head?
  let receiverBalance ← (getBalancesForAddressAndToken balances t.receiver t.token).head?
  some (updateBalance
          (updateBalance balances t.sender t.token (senderBalance.amount + t.amount))
          t.receiver t.token (receiverBalance.amount - t.amount))

/-- UPDATE transactions SET reverted = true WHERE tx_id = $1. -/
def markReverted (txs : List Transaction) (tx_id : String) : List Transaction :=
  txs.map (fun u => if u.tx_id == tx_id then { u with reverted := true } else u)

/-- The revert loop over the prefetched list; each iteration is its own
atomic unit.  The Bool is false when an iteration threw (missing balance
row), which aborts the loop with the prior iterations committed. -/
def revertLoop : DBState → List Transaction → DBState × Bool
  | db, [] => (db, true)
  | db, t :: rest =>
    match revertOne db.balances t with
    | none => (db, false)
    | some balances => revertLoop ⟨balances, markReverted db.transactions t.tx_id⟩ rest

/-- DB.revertTransactions: fetch the not-reverted transactions most recent
first, revert each in its own atomic unit, return the fetched list (only
meaningful when the flag is true: on a throw the JS function propagates
the error instead of returning). -/
def revertTransactions (db : DBState) : DBState × List Transaction × Bool :=
  let pending := pendingTransactions db
  let r := revertLoop db pending
  (r.fst, pending, r.snd)

/-! ### Forward history (reachability of ledger states)

applyTx is the balance effect of one accepted transfer commit, as computed
by the route (amounts read before the atomic write, sender decremented,
receiver incremented); it is used to phrase hypotheses of the form "the
current balances arose from this transaction history". -/

def applyTx (balances : List Balance) (t : Transaction) : Option (List Balance) := do
  let senderBalance ← (getBalancesForAddressAndToken balances t.sender t.token).head?
  let receiverBalance ← (getBalancesForAddressAndToken balances t.receiver t.token).head?
  some (updateBalance
          (updateBalance balances t.sender t.token (senderBalance.amount - t.amount))
          t.receiver t.token (receiverBalance.amount + t.amount))

def applyHistory : List Balance → List Transaction → Option (List Balance)
  | balances, [] => some balances
  | balances, t :: rest => (applyTx balances t).bind (fun b => applyHistory b rest)

/-- Iterated flag updates, one per processed transaction. -/
def markAll (txs : List Transaction) (l : List Transaction) : List Transaction :=
  l.foldl (fun acc t => markReverted acc t.tx_id) txs

/-- The balances table has at most one row per (address, token) — its
primary key in the schema. -/
def uniqueKeys (balances : List Balance) : Prop :=
  (balances.map (fun b => (b.address, b.token))).Nodup

instance (balances : List Balance) : Decidable (uniqueKeys balances) := by
  unfold uniqueKeys; infer_instance

/-! ### Signature codec (src/crypto + src/dto/SignedTransfer.ts)

The source signs with the external library's signMessage/verifyMessage,
assumed correct: a signature verifies exactly for the address derived from
the signing key and for the exact signed message.  That contract is
embedded as an ideal scheme whose signature value records signer address
and message.  The canonical payload is the deterministic serialization of
the transfer minus refund and signature; JSON.stringify is injective on
this fixed shape, so the payload is embedded as the record of the
serialized fields. -/

structure Sig (M : Type) where
  signer : String
  message : M
deriving DecidableEq

def addressOf (privateKey : String) : String := "addr:" ++ privateKey

def cryptoSign {M : Type} (privateKey : String) (message : M) : Sig M :=
  ⟨addressOf privateKey, message⟩

def cryptoVerify {M : Type} [DecidableEq M] (address : String) (signature : Sig M)
    (message : M) : Bool :=
  signature.signer == address && signature.message == message

structure TokenInfo where
  address : String
  amount : Int
deriving DecidableEq

structure TargetChain where
  chainId : Int
  receiver : String
deriving DecidableEq

structure Refund where
  chainId : Int
  tx : String
  signedTx : String
deriving DecidableEq

/-- The Transfer record; the signature field is a type parameter because
the wire shape carries it as a string while the signed view carries the
codec's signature value. -/
structure Transfer (σ : Type) where
  sender : String
  token : TokenInfo
  targetChain : TargetChain
  refund : Option Refund
  signature : σ
deriving DecidableEq

/-- The canonical payload fields: every Transfer field except refund and
signature (the source's spread with refund and signature undefined). -/
structure TransferCore where
  sender : String
  token : TokenInfo
  targetChain : TargetChain
deriving DecidableEq

def sensitiveInfo {σ : Type} (transfer : Transfer σ) : TransferCore :=
  ⟨transfer.sender, transfer.token, transfer.targetChain⟩

/-- SignedTransfer.sign: sign the canonical payload with the sender key and
attach the signature, keeping the other fields (including refund). -/
def SignedTransfer.sign {σ : Type} (transfer : Transfer σ) (senderPrivateKey : String) :
    Transfer (Sig TransferCore) :=
  { sender := transfer.sender, token := transfer.token,
    targetChain := transfer.targetChain, refund := transfer.refund,
    signature := cryptoSign senderPrivateKey (sensitiveInfo transfer) }

/-- SignedTransfer.verify: check the carried signature against the claimed
sender address and the canonical payload recomputed from the transfer. -/
def SignedTransfer.verify (transfer : Transfer (Sig TransferCore)) : Bool :=
  cryptoVerify transfer.sender transfer.signature (sensitiveInfo transfer)

/-! ### Wire payloads and shape validation (src/dto/Transfer.ts)

JsValue models the parsed JSON request body; jsProp models JS property
access, which yields undefined on a primitive receiver and throws a
TypeError when the receiver itself is undefined or null. -/

inductive JsValue where
  | vstr (s : String)
  | vnum (n : Int)
  | vbool (b : Bool)
  | vnull
  | vundef
  | vobj (fields : List (String × JsValue))

def lookupD : List (String × JsValue) → String → JsValue
  | [], _ => .vundef
  | (k, v) :: rest, name => if k = name then v else lookupD rest name

/-- Property access on a value known not to be undefined or null. -/
def jsProp (v : JsValue) (name : String) : JsValue :=
  match v with
  | .vobj fields => lookupD fields name
  | _ => .vundef

def typeOfIsString : JsValue → Bool
  | .vstr _ => true
  | _ => false

def typeOfIsNumber : JsValue → Bool
  | .vnum _ => true
  | _ => false

/-- isValidTransfer: the source's short-circuit conjunction of typeof
checks.  Reading obj.token.address (or obj.targetChain.receiver) throws a
TypeError — the error case — when obj.token (obj.targetChain) is undefined
or null, because the code never guards the nested object itself. -/
def isValidTransfer (obj : JsValue) : Except Unit Bool :=
  match obj with
  | .vobj fields =>
    if !typeOfIsString (lookupD fields "sender") then .ok false
    else
      match lookupD fields "token" with
      | .vundef => .error ()
      | .vnull => .error ()
      | token =>
        if !typeOfIsString (jsProp token "address") then .ok false
        else if !typeOfIsNumber (jsProp token "amount") then .ok false
        else
          match lookupD fields "targetChain" with
          | .vundef => .error ()
          | .vnull => .error ()
          | targetChain =>
            if !typeOfIsString (jsProp targetChain "receiver") then .ok false
            else if !typeOfIsString (lookupD fields "signature") then .ok false
            else .ok true
  | _ => .ok false

def asString : JsValue → String
  | .vstr s => s
  | _ => ""

def asInt : JsValue → Int
  | .vnum n => n
  | _ => 0

/-- The body as Transfer cast: the fields the handler subsequently reads. -/
def toTransfer (body : JsValue) : Transfer String :=
  { sender := asString (jsProp body "sender"),
    token := ⟨asString (jsProp (jsProp body "token") "address"),
              asInt (jsProp (jsProp body "token") "amount")⟩,
    targetChain := ⟨asInt (jsProp (jsProp body "targetChain") "chainId"),
                    asString (jsProp (jsProp body "targetChain") "receiver")⟩,
    refund := none,
    signature := asString (jsProp body "signature") }

/-! ### The POST /transfer handler (src/routes/routes.ts) -/

inductive TransferResponse (σ : Type) where
  | accepted (transfer : Transfer σ) (sender receiver : Option Balance)
  | insufficientFunds
  | noReceiverBalance
  | noSenderBalance
  | conflict
  | invalidSignature
  | invalidRequest
  | internalError
deriving DecidableEq

def TransferResponse.isAccepted {σ : Type} : TransferResponse σ → Bool
  | .accepted _ _ _ => true
  | _ => false

/-- The process state the handler touches: LOCK_MAP and the database. -/
structure RouteState where
  lockMap : List (String × Bool)
  db : DBState
deriving DecidableEq

def lockKeyOf {σ : Type} (t : Transfer σ) : String :=
  t.sender ++ ":" ++ t.targetChain.receiver ++ ":" ++ t.token.address

/-- The handler from the point where the body passed shape validation and
signature verification.  now and txId are the solver timestamp and content
hash split out of refund.tx; refundSig is the solver's refund signature;
commitOk is false when the DB.transfer atomic unit throws, in which case
control jumps to the catch block (respond 500) without reaching the
LOCK_MAP.delete call — exactly as in the source. -/
def postTransferVerified {σ : Type} (st : RouteState) (t0 : Transfer σ) (now : Nat)
    (txId : String) (refundSig : String) (commitOk : Bool) :
    RouteState × TransferResponse σ :=
  let refund : Refund := ⟨t0.targetChain.chainId, toString now ++ ":" ++ txId, refundSig⟩
  let t : Transfer σ := { t0 with refund := some refund }
  let lockKey := lockKeyOf t
  let cas := compareAndSetValue st.lockMap lockKey true (fun lock => !lock)
  if cas.snd then
    match (getBalancesForAddressAndToken st.db.balances t.sender t.token.address).head? with
    | some senderBalance =>
      match (getBalancesForAddressAndToken st.db.balances t.targetChain.receiver
              t.token.address).head? with
      | some receiverBalance =>
        if t.token.amount < senderBalance.amount then
          if commitOk then
            let r := DB.transfer st.db now txId senderBalance.address receiverBalance.address
                       t.token.amount t.token.address
                       (senderBalance.amount - t.token.amount)
                       (receiverBalance.amount + t.token.amount)
            (⟨mapDelete cas.fst lockKey, r.fst⟩, .accepted t r.snd.fst r.snd.snd)
          else
            (⟨cas.fst, st.db⟩, .internalError)
        else
          (⟨mapDelete cas.fst lockKey, st.db⟩, .insufficientFunds)
      | none => (⟨mapDelete cas.fst lockKey, st.db⟩, .noReceiverBalance)
    | none => (⟨mapDelete cas.fst lockKey, st.db⟩, .noSenderBalance)
  else
    (⟨cas.fst, st.db⟩, .conflict)

/-- The whole handler: shape validation (a thrown TypeError is caught by
the route's catch and answered 500), then signature verification (the
codec abstracted as a predicate), then the locked section. -/
def postTransfer (st : RouteState) (body : JsValue) (verify : Transfer String → Bool)
    (now : Nat) (txId : String) (refundSig : String) (commitOk : Bool) :
    RouteState × TransferResponse String :=
  match isValidTransfer body with
  | .error _ => (st, .internalError)
  | .ok false => (st, .invalidRequest)
  | .ok true =>
    let t := toTransfer body
    if verify t then
      postTransferVerified st t now txId refundSig commitOk
    else
      (st, .invalidSignature)

/-! ### Lemmas about the lock map -/

lemma mapGet_set_self {K V : Type} [DecidableEq K] (m : List (K × V)) (k : K) (v : V) :
    mapGet (mapSet m k v) k = some v := by
  induction m with
  | nil => simp [mapSet, mapGet]
  | cons p rest ih =>
      obtain ⟨k0, v0⟩ := p
      by_cases hk : k0 = k
      · simp [mapSet, hk, mapGet]
      · simp [mapSet, hk, mapGet, ih]

lemma mapGet_delete_self {K V : Type} [DecidableEq K] (m : List (K × V)) (k : K) :
    mapGet (mapDelete m k) k = none := by
  induction m with
  | nil => rfl
  | cons p rest ih =>
      obtain ⟨k0, v0⟩ := p
      by_cases hk : k0 = k
      · simpa [mapDelete, hk] using ih
      · simp [mapDelete, hk, mapGet, ih]

/-! ### Lemmas about balance reads and writes -/

lemma balKey_iff (b : Balance) (a tok : String) :
    balKey b a tok = true ↔ (b.address = a ∧ b.token = tok) := by
  simp [balKey]

lemma balKey_set (b : Balance) (v : Int) (a tok : String) :
    balKey { b with amount := v } a tok = balKey b a tok := rfl

lemma getBal_update_self (bals : List Balance) (a tok : String) (v : Int) :
    getBalancesForAddressAndToken (updateBalance bals a tok v) a tok
      = (getBalancesForAddressAndToken bals a tok).map (fun b => { b with amount := v }) := by
  induction bals with
  | nil => rfl
  | cons b rest ih =>
      by_cases hb : balKey b a tok
      · simpa [updateBalance, getBalancesForAddressAndToken, List.filter_cons, hb,
          balKey_set] using ih
      · simpa [updateBalance, getBalancesForAddressAndToken, List.filter_cons, hb] using ih

lemma getBal_update_other (bals : List Balance) (a tok a2 tok2 : String) (v : Int)
    (hne : ¬(a2 = a ∧ tok2 = tok)) :
    getBalancesForAddressAndToken (updateBalance bals a2 tok2 v) a tok
      = getBalancesForAddressAndToken bals a tok := by
  induction bals with
  | nil => rfl
  | cons b rest ih =>
      by_cases hb2 : balKey b a2 tok2
      · have hba : ¬ (balKey b a tok = true) := by
          intro hcon
          exact hne ⟨((balKey_iff b a2 tok2).mp hb2).1.symm.trans ((balKey_iff b a tok).mp hcon).1,
            ((balKey_iff b a2 tok2).mp hb2).2.symm.trans ((balKey_iff b a tok).mp hcon).2⟩
        simpa [updateBalance, getBalancesForAddressAndToken, List.filter_cons, hb2,
          balKey_set, hba] using ih
      · by_cases hba : balKey b a tok
        · simpa [updateBalance, getBalancesForAddressAndToken, List.filter_cons, hb2, hba]
            using ih
        · simpa [updateBalance, getBalancesForAddressAndToken, List.filter_cons, hb2, hba]
            using ih

lemma updateBalance_keys (bals : List Balance) (a tok : String) (v : Int) :
    (updateBalance bals a tok v).map (fun b => (b.address, b.token))
      = bals.map (fun b => (b.address, b.token)) := by
  induction bals with
  | nil => rfl
  | cons b rest ih => by_cases hb : balKey b a tok <;> simp [updateBalance, hb, ih] at ih ⊢ <;>
      simpa [updateBalance] using ih

lemma uniqueKeys_update (bals : List Balance) (a tok : String) (v : Int)
    (hu : uniqueKeys bals) : uniqueKeys (updateBalance bals a tok v) := by
  unfold uniqueKeys at hu ⊢
  rwa [updateBalance_keys]

lemma updateBalance_no_match (bals : List Balance) (a tok : String) (v : Int)
    (h : ∀ b ∈ bals, ¬ (balKey b a tok = true)) : updateBalance bals a tok v = bals := by
  induction bals with
  | nil => rfl
  | cons b rest ih =>
      have hb := h b (List.mem_cons_self b rest)
      simp only [updateBalance, List.map_cons, if_neg hb]
      exact congrArg (b :: ·) (ih (fun x hx => h x (List.mem_cons_of_mem b hx)))

lemma updateBalance_same_key (bals : List Balance) (a tok : String) (v1 v2 : Int) :
    updateBalance (updateBalance bals a tok v1) a tok v2 = updateBalance bals a tok v2 := by
  unfold updateBalance
  rw [List.map_map]
  refine List.map_congr_left (fun b _ => ?_)
  by_cases hb : balKey b a tok
  · simp [Function.comp, hb, balKey_set]
  · simp [Function.comp, hb]

lemma updateBalance_comm (bals : List Balance) (a tok a2 tok2 : String) (v v2 : Int)
    (hne : ¬(a = a2 ∧ tok = tok2)) :
    updateBalance (updateBalance bals a tok v) a2 tok2 v2
      = updateBalance (updateBalance bals a2 tok2 v2) a tok v := by
  unfold updateBalance
  rw [List.map_map, List.map_map]
  refine List.map_congr_left (fun b _ => ?_)
  by_cases hb : balKey b a tok
  · have hb2 : ¬ (balKey b a2 tok2 = true) := by
      intro hcon
      exact hne ⟨((balKey_iff b a tok).mp hb).1.symm.trans ((balKey_iff b a2 tok2).mp hcon).1,
        ((balKey_iff b a tok).mp hb).2.symm.trans ((balKey_iff b a2 tok2).mp hcon).2⟩
    simp [Function.comp, hb, hb2, balKey_set]
  · by_cases hb2 : balKey b a2 tok2
    · simp [Function.comp, hb, hb2, balKey_set]
    · simp [Function.comp, hb, hb2]

lemma head_filter_key (bals : List Balance) (a tok : String) (b : Balance)
    (hb : (getBalancesForAddressAndToken bals a tok).head? = some b) :
    b.address = a ∧ b.token = tok := by
  have hmem : b ∈ getBalancesForAddressAndToken bals a tok := by
    cases hfl : getBalancesForAddressAndToken bals a tok with
    | nil => rw [hfl] at hb; cases hb
    | cons x xs =>
        rw [hfl] at hb
        simp only [List.head?_cons, Option.some.injEq] at hb
        subst hb
        exact List.mem_cons_self x xs
  have hmem2 : b ∈ bals.filter (fun bb => balKey bb a tok) := hmem
  exact (balKey_iff b a tok).mp (List.mem_filter.mp hmem2).2

lemma updateBalance_head_self (bals : List Balance) (a tok : String) (b : Balance)
    (hu : uniqueKeys bals)
    (hb : (getBalancesForAddressAndToken bals a tok).head? = some b) :
    updateBalance bals a tok b.amount = bals := by
  induction bals with
  | nil => cases hb
  | cons x rest ih =>
      have hu2 : uniqueKeys rest := by
        unfold uniqueKeys at hu ⊢
        exact (List.nodup_cons.mp hu).2
      by_cases hx : balKey x a tok
      · have hxb : x = b := by
          rw [getBalancesForAddressAndToken, List.filter_cons, if_pos hx] at hb
          simpa using hb
        have hnomatch : ∀ y ∈ rest, ¬ (balKey y a tok = true) := by
          intro y hy hcon
          have hkx := (balKey_iff x a tok).mp hx
          have hky := (balKey_iff y a tok).mp hcon
          have : (x.address, x.token) ∈ rest.map (fun b => (b.address, b.token)) := by
            refine List.mem_map.mpr ⟨y, hy, ?_⟩
            rw [hky.1, hky.2, hkx.1, hkx.2]
          exact (List.nodup_cons.mp hu).1 this
        simp only [updateBalance, List.map_cons, if_pos hx]
        have hxx : ({ x with amount := b.amount } : Balance) = x := by rw [hxb]
        rw [hxx]
        exact congrArg (x :: ·) (updateBalance_no_match rest a tok b.amount hnomatch)
      · rw [getBalancesForAddressAndToken, List.filter_cons, if_neg hx] at hb
        simp only [updateBalance, List.map_cons, if_neg hx]
        exact congrArg (x :: ·) (ih hu2 hb)

/-! ### One revert iteration undoes one applied transfer -/

lemma revertOne_applyTx (bals bals2 : List Balance) (t : Transaction)
    (hu : uniqueKeys bals) (happ : applyTx bals t = some bals2) :
    revertOne bals2 t = some bals := by
  unfold applyTx at happ
  cases hsb : (getBalancesForAddressAndToken bals t.sender t.token).head? with
  | none => rw [hsb] at happ; simp at happ
  | some sb =>
  cases hrb : (getBalancesForAddressAndToken bals t.receiver t.token).head? with
  | none => rw [hsb, hrb] at happ; simp at happ
  | some rb =>
  rw [hsb, hrb] at happ
  simp only [Option.bind_eq_bind, Option.some_bind, Option.some.injEq] at happ
  subst happ
  by_cases hsr : t.sender = t.receiver
  · rw [← hsr] at hrb
    rw [hsb] at hrb
    injection hrb with hrb2
    subst hrb2
    unfold revertOne
    rw [← hsr, updateBalance_same_key, getBal_update_self, List.head?_map, hsb]
    simp only [Option.map_some', Option.bind_eq_bind, Option.some_bind]
    rw [updateBalance_same_key, updateBalance_same_key]
    have h1 : sb.amount + t.amount + t.amount - t.amount = sb.amount + t.amount := by ring
    have h2 : sb.amount + t.amount - t.amount = sb.amount := by ring
    rw [h2]
    exact congrArg some (updateBalance_head_self bals t.sender t.token sb hu hsb)
  · have hne1 : ¬(t.receiver = t.sender ∧ t.token = t.token) := by
      intro hcon; exact hsr hcon.1.symm
    have hne2 : ¬(t.sender = t.receiver ∧ t.token = t.token) := by
      intro hcon; exact hsr hcon.1
    unfold revertOne
    rw [getBal_update_other _ _ _ _ _ _ hne1, getBal_update_self, List.head?_map, hsb]
    rw [getBal_update_self, getBal_update_other _ _ _ _ _ _ hne2, List.head?_map, hrb]
    simp only [Option.map_some', Option.bind_eq_bind, Option.some_bind]
    have h1 : sb.amount - t.amount + t.amount = sb.amount := by ring
    have h2 : rb.amount + t.amount - t.amount = rb.amount := by ring
    rw [h1, h2]
    rw [updateBalance_comm _ _ _ _ _ _ _ hne2, updateBalance_same_key,
      updateBalance_comm _ _ _ _ _ _ _ hne1, updateBalance_same_key,
      updateBalance_head_self bals t.sender t.token sb hu hsb]
    exact congrArg some (updateBalance_head_self bals t.receiver t.token rb hu hrb)

/-! ### Loop lemmas -/

lemma revertLoop_append (db : DBState) (l1 l2 : List Transaction)
    (h : (revertLoop db l1).snd = true) :
    revertLoop db (l1 ++ l2) = revertLoop (revertLoop db l1).fst l2 := by
  induction l1 generalizing db with
  | nil => rfl
  | cons t rest ih =>
      cases hro : revertOne db.balances t with
      | none =>
          simp only [revertLoop, hro] at h
          exact Bool.noConfusion h
      | some bals =>
          rw [List.cons_append]
          simp only [revertLoop, hro] at h ⊢
          exact ih _ h

lemma uniqueKeys_applyTx (bals bals2 : List Balance) (t : Transaction)
    (hu : uniqueKeys bals) (happ : applyTx bals t = some bals2) : uniqueKeys bals2 := by
  unfold applyTx at happ
  cases hsb : (getBalancesForAddressAndToken bals t.sender t.token).head? with
  | none => rw [hsb] at happ; simp at happ
  | some sb =>
  cases hrb : (getBalancesForAddressAndToken bals t.receiver t.token).head? with
  | none => rw [hsb, hrb] at happ; simp at happ
  | some rb =>
  rw [hsb, hrb] at happ
  simp only [Option.bind_eq_bind, Option.some_bind, Option.some.injEq] at happ
  subst happ
  exact uniqueKeys_update _ _ _ _ (uniqueKeys_update _ _ _ _ hu)

lemma markAll_cons (txs : List Transaction) (t : Transaction) (l : List Transaction) :
    markAll txs (t :: l) = markAll (markReverted txs t.tx_id) l := rfl

lemma markAll_append (txs : List Transaction) (l1 l2 : List Transaction) :
    markAll txs (l1 ++ l2) = markAll (markAll txs l1) l2 := by
  unfold markAll
  exact List.foldl_append _ _ _ _

/-- The revert loop over a reversed applied history restores the balances
that preceded the history and marks the processed transaction ids. -/
lemma revertLoop_applyHistory (h : List Transaction) :
    ∀ (b0 cur : List Balance) (txs : List Transaction),
    uniqueKeys b0 → applyHistory b0 h = some cur →
    revertLoop ⟨cur, txs⟩ h.reverse = (⟨b0, markAll txs h.reverse⟩, true) := by
  induction h with
  | nil =>
      intro b0 cur txs _ happ
      simp only [applyHistory, Option.some.injEq] at happ
      subst happ
      rfl
  | cons t rest ih =>
      intro b0 cur txs hu happ
      simp only [applyHistory] at happ
      cases hstep : applyTx b0 t with
      | none => rw [hstep] at happ; simp at happ
      | some b1 =>
          rw [hstep] at happ
          simp only [Option.some_bind] at happ
          have hu1 : uniqueKeys b1 := uniqueKeys_applyTx b0 b1 t hu hstep
          have hloop := ih b1 cur txs hu1 happ
          rw [List.reverse_cons, revertLoop_append _ _ _ (by rw [hloop]), hloop]
          simp only [revertLoop]
          rw [revertOne_applyTx b0 b1 t hu hstep]
          rw [markAll_append]
          rfl

/-! ### Flag updates, sorting, and the history-level revert theorem -/

lemma markAll_eq_map (l : List Transaction) : ∀ txs : List Transaction,
    markAll txs l = txs.map (fun u =>
      if u.tx_id ∈ l.map Transaction.tx_id then { u with reverted := true } else u) := by
  induction l with
  | nil =>
      intro txs
      simp [markAll]
  | cons t l ih =>
      intro txs
      rw [markAll_cons, ih]
      unfold markReverted
      rw [List.map_map]
      refine List.map_congr_left (fun u _ => ?_)
      by_cases hid : u.tx_id = t.tx_id
      · simp [Function.comp, hid]
      · simp [Function.comp, hid]

lemma markAll_all_ids (txs l : List Transaction)
    (h : ∀ u ∈ txs, u.tx_id ∈ l.map Transaction.tx_id) :
    markAll txs l = txs.map (fun u => { u with reverted := true }) := by
  rw [markAll_eq_map]
  exact List.map_congr_left (fun u hu => by rw [if_pos (h u hu)])

lemma sortDescInsert_append (t : Transaction) (l : List Transaction)
    (h : ∀ u ∈ l, ¬(u.tx_ts ≤ t.tx_ts)) : sortDescInsert t l = l ++ [t] := by
  induction l with
  | nil => rfl
  | cons u rest ih =>
      rw [sortDescInsert, if_neg (h u (List.mem_cons_self u rest)),
        ih (fun x hx => h x (List.mem_cons_of_mem u hx))]
      rfl

lemma sortByTsDesc_eq_reverse (l : List Transaction)
    (h : l.Pairwise (fun a b => a.tx_ts < b.tx_ts)) : sortByTsDesc l = l.reverse := by
  induction l with
  | nil => rfl
  | cons t rest ih =>
      have hall : ∀ u ∈ rest.reverse, ¬(u.tx_ts ≤ t.tx_ts) := by
        intro u hu
        have := (List.pairwise_cons.mp h).1 u (List.mem_reverse.mp hu)
        omega
      have ih2 := ih (List.pairwise_cons.mp h).2
      show sortDescInsert t (sortByTsDesc rest) = (t :: rest).reverse
      rw [ih2, List.reverse_cons, sortDescInsert_append t rest.reverse hall]

lemma filter_not_reverted_self (h : List Transaction)
    (hnr : ∀ t ∈ h, t.reverted = false) :
    h.filter (fun t => !t.reverted) = h :=
  List.filter_eq_self.mpr (fun t ht => by rw [hnr t ht]; rfl)

lemma revertTransactions_history (b0 cur : List Balance) (h : List Transaction)
    (hu : uniqueKeys b0)
    (hasc : h.Pairwise (fun a b => a.tx_ts < b.tx_ts))
    (hnr : ∀ t ∈ h, t.reverted = false)
    (happ : applyHistory b0 h = some cur) :
    revertTransactions ⟨cur, h⟩ =
      (⟨b0, h.map (fun t => { t with reverted := true })⟩, h.reverse, true) := by
  have hpend : pendingTransactions ⟨cur, h⟩ = h.reverse := by
    show sortByTsDesc (h.filter (fun t => !t.reverted)) = h.reverse
    rw [filter_not_reverted_self h hnr, sortByTsDesc_eq_reverse h hasc]
  have hmark : markAll h h.reverse = h.map (fun t => { t with reverted := true }) := by
    refine markAll_all_ids h h.reverse (fun u hu2 => ?_)
    rw [List.map_reverse]
    exact List.mem_reverse.mpr (List.mem_map_of_mem _ hu2)
  have hloop := revertLoop_applyHistory h b0 cur h hu happ
  unfold revertTransactions
  rw [hpend]
  simp only [hloop, hmark]

/-! ### Lemmas for idempotence and partial-run resumption -/

lemma applyHistory_append (l1 l2 : List Transaction) : ∀ b : List Balance,
    applyHistory b (l1 ++ l2) = (applyHistory b l1).bind (fun m => applyHistory m l2) := by
  induction l1 with
  | nil =>
      intro b
      simp [applyHistory]
  | cons t rest ih =>
      intro b
      cases hstep : applyTx b t with
      | none => simp [applyHistory, hstep]
      | some b1 => simp [applyHistory, hstep, ih]

lemma uniqueKeys_applyHistory (l : List Transaction) : ∀ b b2 : List Balance,
    uniqueKeys b → applyHistory b l = some b2 → uniqueKeys b2 := by
  induction l with
  | nil =>
      intro b b2 hu happ
      simp only [applyHistory, Option.some.injEq] at happ
      subst happ
      exact hu
  | cons t rest ih =>
      intro b b2 hu happ
      simp only [applyHistory] at happ
      cases hstep : applyTx b t with
      | none => rw [hstep] at happ; simp at happ
      | some b1 =>
          rw [hstep] at happ
          simp only [Option.some_bind] at happ
          exact ih b1 b2 (uniqueKeys_applyTx b b1 t hu hstep) happ

lemma mem_ids_reverse (u : Transaction) (l : List Transaction) :
    (u.tx_id ∈ l.reverse.map Transaction.tx_id) ↔ u.tx_id ∈ l.map Transaction.tx_id := by
  rw [List.map_reverse, List.mem_reverse]

lemma ids_disjoint (h1 h2 : List Transaction)
    (hids : ((h1 ++ h2).map Transaction.tx_id).Nodup) (u : Transaction) (hu : u ∈ h1) :
    u.tx_id ∉ h2.map Transaction.tx_id := by
  rw [List.map_append] at hids
  exact (List.disjoint_of_nodup_append hids) (List.mem_map_of_mem _ hu)

lemma filter_after_marked_suffix (h1 h2 : List Transaction)
    (hnr : ∀ t ∈ h1 ++ h2, t.reverted = false)
    (hids : ((h1 ++ h2).map Transaction.tx_id).Nodup) :
    (markAll (h1 ++ h2) h2.reverse).filter (fun t => !t.reverted) = h1 := by
  rw [markAll_eq_map, List.map_append, List.filter_append]
  have hmap1 : h1.map (fun u =>
      if u.tx_id ∈ h2.reverse.map Transaction.tx_id then { u with reverted := true } else u)
      = h1 := by
    refine (List.map_congr_left (fun u hu => ?_)).trans (List.map_id h1)
    rw [if_neg (fun hcon => ids_disjoint h1 h2 hids u hu ((mem_ids_reverse u h2).mp hcon))]
    rfl
  have hf1 : h1.filter (fun t => !t.reverted) = h1 :=
    filter_not_reverted_self h1 (fun t ht => hnr t (List.mem_append_left h2 ht))
  have hmap2 : (h2.map (fun u =>
      if u.tx_id ∈ h2.reverse.map Transaction.tx_id then { u with reverted := true } else u)).filter
        (fun t => !t.reverted) = [] := by
    refine List.filter_eq_nil_iff.mpr (fun x hx => ?_)
    obtain ⟨u, hu, rfl⟩ := List.mem_map.mp hx
    rw [if_pos ((mem_ids_reverse u h2).mpr (List.mem_map_of_mem _ hu))]
    simp
  rw [hmap1, hf1, hmap2, List.append_nil]

lemma markAll_twice (h1 h2 : List Transaction) :
    markAll (markAll (h1 ++ h2) h2.reverse) h1.reverse
      = (h1 ++ h2).map (fun t => { t with reverted := true }) := by
  rw [markAll_eq_map, markAll_eq_map, List.map_map]
  refine List.map_congr_left (fun u hu => ?_)
  by_cases h2m : u.tx_id ∈ h2.map Transaction.tx_id
  · simp only [Function.comp]
    rw [if_pos ((mem_ids_reverse u h2).mpr h2m)]
    by_cases h1m : u.tx_id ∈ h1.reverse.map Transaction.tx_id <;> simp [h1m]
  · have hu1 : u ∈ h1 := by
      rcases List.mem_append.mp hu with h | h
      · exact h
      · exact absurd (List.mem_map_of_mem _ h) h2m
    simp only [Function.comp]
    rw [if_neg (fun hcon => h2m ((mem_ids_reverse u h2).mp hcon)),
      if_pos ((mem_ids_reverse u h1).mpr (List.mem_map_of_mem _ hu1))]

/-! ### Route lemmas -/

lemma lockKeyOf_refund {σ : Type} (t : Transfer σ) (r : Option Refund) :
    lockKeyOf { t with refund := r } = lockKeyOf t := rfl

/-- Every accepted run of the locked section reached the commit: both
balance rows were read, the sufficiency check passed strictly, the commit
did not throw, and the final balances are the two absolute writes. -/
lemma postTransferVerified_accepted {σ : Type} (st st2 : RouteState) (t : Transfer σ)
    (now : Nat) (txId refundSig : String) (ck : Bool) (t2 : Transfer σ)
    (sb rb : Option Balance)
    (hrun : postTransferVerified st t now txId refundSig ck = (st2, .accepted t2 sb rb)) :
    ∃ senderBalance receiverBalance : Balance,
      (getBalancesForAddressAndToken st.db.balances t.sender t.token.address).head?
          = some senderBalance
      ∧ (getBalancesForAddressAndToken st.db.balances t.targetChain.receiver
          t.token.address).head? = some receiverBalance
      ∧ senderBalance.address = t.sender ∧ senderBalance.token = t.token.address
      ∧ receiverBalance.address = t.targetChain.receiver
      ∧ receiverBalance.token = t.token.address
      ∧ t.token.amount < senderBalance.amount
      ∧ ck = true
      ∧ st2.db.balances = updateBalance
          (updateBalance st.db.balances t.sender t.token.address
            (senderBalance.amount - t.token.amount))
          t.targetChain.receiver t.token.address
          (receiverBalance.amount + t.token.amount) := by
  simp only [postTransferVerified, lockKeyOf_refund] at hrun
  cases hfree : (compareAndSetValue st.lockMap (lockKeyOf t) true fun lock => !lock).snd with
  | false => simp only [hfree, if_false] at hrun; simp at hrun
  | true =>
  simp only [hfree, if_true] at hrun
  cases hsb : (getBalancesForAddressAndToken st.db.balances t.sender t.token.address).head? with
  | none => simp only [hsb] at hrun; simp at hrun
  | some senderBalance =>
  simp only [hsb] at hrun
  cases hrb : (getBalancesForAddressAndToken st.db.balances t.targetChain.receiver
      t.token.address).head? with
  | none => simp only [hrb] at hrun; simp at hrun
  | some receiverBalance =>
  simp only [hrb] at hrun
  by_cases hlt : t.token.amount < senderBalance.amount
  · rw [if_pos hlt] at hrun
    cases ck with
    | false => simp at hrun
    | true =>
      simp only [if_true] at hrun
      refine ⟨senderBalance, receiverBalance, rfl, rfl, ?_, ?_, ?_, ?_, hlt, rfl, ?_⟩
      · exact (head_filter_key _ _ _ _ hsb).1
      · exact (head_filter_key _ _ _ _ hsb).2
      · exact (head_filter_key _ _ _ _ hrb).1
      · exact (head_filter_key _ _ _ _ hrb).2
      · have h1 := congrArg Prod.fst hrun
        simp only at h1
        rw [← h1]
        simp only [DB.transfer]
        rw [(head_filter_key _ _ _ _ hsb).1, (head_filter_key _ _ _ _ hrb).1]
  · rw [if_neg hlt] at hrun
    simp at hrun

/-! ### Token supply -/

/-- Total amount of a token across all balance rows. -/
def tokenSupply (balances : List Balance) (token : String) : Int :=
  ((balances.filter (fun b => b.token == token)).map Balance.amount).sum

lemma tokenSupply_cons (b : Balance) (rest : List Balance) (tok : String) :
    tokenSupply (b :: rest) tok
      = (if b.token == tok then b.amount else 0) + tokenSupply rest tok := by
  by_cases hbt : (b.token == tok) = true
  · simp [tokenSupply, List.filter_cons, hbt]
  · simp [tokenSupply, List.filter_cons, hbt]

lemma tokenSupply_update (bals : List Balance) (a tok : String) (v : Int) (row : Balance)
    (h : getBalancesForAddressAndToken bals a tok = [row]) :
    tokenSupply (updateBalance bals a tok v) tok = tokenSupply bals tok - row.amount + v := by
  induction bals with
  | nil => simp [getBalancesForAddressAndToken] at h
  | cons b rest ih =>
      by_cases hb : balKey b a tok
      · rw [getBalancesForAddressAndToken, List.filter_cons, if_pos hb] at h
        injection h with h1 h2
        subst h1
        have hnomatch : ∀ y ∈ rest, ¬ (balKey y a tok = true) := List.filter_eq_nil_iff.mp h2
        have hrest : updateBalance rest a tok v = rest :=
          updateBalance_no_match rest a tok v hnomatch
        have hbt : (b.token == tok) = true := beq_iff_eq.mpr ((balKey_iff b a tok).mp hb).2
        simp only [updateBalance, List.map_cons, if_pos hb]
        rw [show List.map (fun x => if balKey x a tok = true then { x with amount := v } else x)
            rest = rest from hrest]
        rw [tokenSupply_cons, tokenSupply_cons, if_pos hbt,
          if_pos (show (({ b with amount := v } : Balance).token == tok) = true from hbt)]
        ring
      · rw [getBalancesForAddressAndToken, List.filter_cons, if_neg hb] at h
        have ihr := ih h
        simp only [updateBalance, List.map_cons, if_neg hb]
        rw [show List.map (fun x => if balKey x a tok = true then { x with amount := v } else x)
            rest = updateBalance rest a tok v from rfl]
        rw [tokenSupply_cons, tokenSupply_cons, ihr]
        omega

/-! ### Claim theorems -/

/-- C4 (amended): compareAndSetValue(key, newValue, predicate) sets the
entry to newValue and returns true exactly when the key is absent or the
predicate holds of the current value, and otherwise leaves the map
unchanged and returns false; consequently, of two acquisition attempts
compareAndSet(key, true, not) on the same key that is initially unheld
(absent or mapped to false), with no intervening delete, exactly one
returns true. -/
theorem compareAndSetValue_spec :
    (∀ (V : Type) (m : List (String × V)) (key : String) (value : V) (compare : V → Bool),
      ((mapGet m key = none ∨ ∃ old, mapGet m key = some old ∧ compare old = true) →
          compareAndSetValue m key value compare = (mapSet m key value, true)
            ∧ mapGet (mapSet m key value) key = some value)
      ∧ (∀ old, mapGet m key = some old → compare old = false →
          compareAndSetValue m key value compare = (m, false))
      ∧ ((compareAndSetValue m key value compare).snd = true ↔
          (mapGet m key = none ∨ ∃ old, mapGet m key = some old ∧ compare old = true)))
    ∧ (∀ (m : List (String × Bool)) (key : String),
        (mapGet m key = none ∨ mapGet m key = some false) →
        (compareAndSetValue m key true (fun lock => !lock)).snd = true
        ∧ (compareAndSetValue (compareAndSetValue m key true (fun lock => !lock)).fst key true
            (fun lock => !lock)).snd = false) := by
  constructor
  · intro V m key value compare
    refine ⟨?_, ?_, ?_⟩
    · rintro (hnone | ⟨old, hold, hcmp⟩)
      · simp only [compareAndSetValue, hnone]
        exact ⟨trivial, mapGet_set_self m key value⟩
      · simp only [compareAndSetValue, hold, hcmp, if_true]
        exact ⟨trivial, mapGet_set_self m key value⟩
    · intro old hold hcmp
      simp [compareAndSetValue, hold, hcmp]
    · cases hm : mapGet m key with
      | none => simp [compareAndSetValue, hm]
      | some old =>
          cases hcmp : compare old with
          | false => simp [compareAndSetValue, hm, hcmp]
          | true => simp [compareAndSetValue, hm, hcmp]
  · intro m key h
    have hfirst : compareAndSetValue m key true (fun lock => !lock)
        = (mapSet m key true, true) := by
      rcases h with hnone | hfalse
      · simp only [compareAndSetValue, hnone]
      · simp only [compareAndSetValue, hfalse, Bool.not_false, if_true]
    refine ⟨by rw [hfirst], ?_⟩
    rw [hfirst]
    simp only [compareAndSetValue, mapGet_set_self, Bool.not_true, Bool.false_eq_true,
      if_false]

/-- C4 counterexample: against a key already held (mapped to true), two
acquisition attempts with no intervening delete both return false — not
exactly one of them returns true as the claim states for arbitrary
initial lock-map contents. -/
theorem compareAndSetValue_held_key_both_fail :
    (compareAndSetValue [("k", true)] "k" true (fun lock => !lock)).snd = false
    ∧ (compareAndSetValue
        (compareAndSetValue [("k", true)] "k" true (fun lock => !lock)).fst
        "k" true (fun lock => !lock)).snd = false := by
  decide

/-- Witness for the amended C4 theorem at concrete inputs: an absent key
is acquired and the second attempt fails. -/
theorem compareAndSetValue_spec_witness :
    (compareAndSetValue ([] : List (String × Bool)) "k" true (fun lock => !lock)
        = (mapSet ([] : List (String × Bool)) "k" true, true))
    ∧ (compareAndSetValue [("a", false)] "a" true (fun lock => !lock)).snd = true := by
  constructor
  · exact ((compareAndSetValue_spec.1 Bool [] "k" true (fun lock => !lock)).1 (Or.inl rfl)).1
  · exact (compareAndSetValue_spec.2 [("a", false)] "a" (Or.inr (by decide))).1

/-- C3: a run in which the DB.transfer atomic unit throws.  The handler
jumps to the catch block and answers 500 without reaching the
LOCK_MAP.delete call, so the lock key is left held (mapped to true) and
the database is unchanged — the release-on-every-exit-path property the
claim states fails on this path. -/
theorem lock_left_held_on_commit_failure :
    (postTransferVerified (⟨[], ⟨[⟨"A", "T", 10⟩, ⟨"B", "T", 5⟩], []⟩⟩ : RouteState)
        (⟨"A", ⟨"T", 3⟩, ⟨1, "B"⟩, none, "s"⟩ : Transfer String) 7 "id" "rs" false).snd
      = TransferResponse.internalError
    ∧ mapGet (postTransferVerified (⟨[], ⟨[⟨"A", "T", 10⟩, ⟨"B", "T", 5⟩], []⟩⟩ : RouteState)
        (⟨"A", ⟨"T", 3⟩, ⟨1, "B"⟩, none, "s"⟩ : Transfer String) 7 "id" "rs" false).fst.lockMap
        "A:B:T" = some true
    ∧ (postTransferVerified (⟨[], ⟨[⟨"A", "T", 10⟩, ⟨"B", "T", 5⟩], []⟩⟩ : RouteState)
        (⟨"A", ⟨"T", 3⟩, ⟨1, "B"⟩, none, "s"⟩ : Transfer String) 7 "id" "rs" false).fst.db
      = ⟨[⟨"A", "T", 10⟩, ⟨"B", "T", 5⟩], []⟩ := by
  refine ⟨rfl, ?_, rfl⟩
  decide

/-- C10: balances reached by two accepted transfers committed in the same
millisecond (equal tx_ts, so the SQL tie order can present the older
transaction first); the first per-transaction atomic unit of
revertTransactions — the durable store state left if the process stops
mid-batch — writes receiverBalance minus amount with no non-negativity
check and leaves balance row B at minus one, although every balance the
transfers themselves produced was non-negative. -/
theorem revertAll_negative_balance_mid_batch :
    (postTransferVerified (⟨[], ⟨[⟨"A", "T", 3⟩, ⟨"B", "T", 0⟩, ⟨"C", "T", 0⟩], []⟩⟩ :
          RouteState)
        (⟨"A", ⟨"T", 2⟩, ⟨1, "B"⟩, none, "s1"⟩ : Transfer String) 5 "id1" "r1" true).snd.isAccepted
      = true
    ∧ (postTransferVerified
        (postTransferVerified (⟨[], ⟨[⟨"A", "T", 3⟩, ⟨"B", "T", 0⟩, ⟨"C", "T", 0⟩], []⟩⟩ :
            RouteState)
          (⟨"A", ⟨"T", 2⟩, ⟨1, "B"⟩, none, "s1"⟩ : Transfer String) 5 "id1" "r1" true).fst
        (⟨"B", ⟨"T", 1⟩, ⟨1, "C"⟩, none, "s2"⟩ : Transfer String) 5 "id2" "r2" true).snd.isAccepted
      = true
    ∧ (∀ b ∈ (postTransferVerified
        (postTransferVerified (⟨[], ⟨[⟨"A", "T", 3⟩, ⟨"B", "T", 0⟩, ⟨"C", "T", 0⟩], []⟩⟩ :
            RouteState)
          (⟨"A", ⟨"T", 2⟩, ⟨1, "B"⟩, none, "s1"⟩ : Transfer String) 5 "id1" "r1" true).fst
        (⟨"B", ⟨"T", 1⟩, ⟨1, "C"⟩, none, "s2"⟩ : Transfer String) 5 "id2" "r2"
        true).fst.db.balances, 0 ≤ b.amount)
    ∧ readBal (revertLoop
        (postTransferVerified
          (postTransferVerified (⟨[], ⟨[⟨"A", "T", 3⟩, ⟨"B", "T", 0⟩, ⟨"C", "T", 0⟩], []⟩⟩ :
              RouteState)
            (⟨"A", ⟨"T", 2⟩, ⟨1, "B"⟩, none, "s1"⟩ : Transfer String) 5 "id1" "r1" true).fst
          (⟨"B", ⟨"T", 1⟩, ⟨1, "C"⟩, none, "s2"⟩ : Transfer String) 5 "id2" "r2" true).fst.db
        ((pendingTransactions
          (postTransferVerified
            (postTransferVerified (⟨[], ⟨[⟨"A", "T", 3⟩, ⟨"B", "T", 0⟩, ⟨"C", "T", 0⟩], []⟩⟩ :
                RouteState)
              (⟨"A", ⟨"T", 2⟩, ⟨1, "B"⟩, none, "s1"⟩ : Transfer String) 5 "id1" "r1" true).fst
            (⟨"B", ⟨"T", 1⟩, ⟨1, "C"⟩, none, "s2"⟩ : Transfer String) 5 "id2" "r2"
            true).fst.db).take 1)).fst.balances "B" "T" = some (-1) := by
  refine ⟨rfl, rfl, by decide, ?_⟩
  decide

/-- C7: signing covers exactly the canonical payload (the transfer minus
refund and signature); changing sender, token address, token amount,
receiver, or chain id after signing falsifies verification, while the
refund and signature fields are outside the canonical payload, so
changing only them leaves it unchanged and verification intact. -/
theorem signedTransfer_tamper_evidence {σ : Type} (t : Transfer σ) (privateKey : String)
    (haddr : t.sender = addressOf privateKey) :
    SignedTransfer.verify (SignedTransfer.sign t privateKey) = true
    ∧ (∀ x, x ≠ t.sender →
        SignedTransfer.verify { SignedTransfer.sign t privateKey with sender := x } = false)
    ∧ (∀ x, x ≠ t.token.address →
        SignedTransfer.verify { SignedTransfer.sign t privateKey with
          token := ⟨x, t.token.amount⟩ } = false)
    ∧ (∀ x, x ≠ t.token.amount →
        SignedTransfer.verify { SignedTransfer.sign t privateKey with
          token := ⟨t.token.address, x⟩ } = false)
    ∧ (∀ x, x ≠ t.targetChain.receiver →
        SignedTransfer.verify { SignedTransfer.sign t privateKey with
          targetChain := ⟨t.targetChain.chainId, x⟩ } = false)
    ∧ (∀ x, x ≠ t.targetChain.chainId →
        SignedTransfer.verify { SignedTransfer.sign t privateKey with
          targetChain := ⟨x, t.targetChain.receiver⟩ } = false)
    ∧ (∀ (r : Option Refund) (sg : Sig TransferCore),
        sensitiveInfo { SignedTransfer.sign t privateKey with refund := r, signature := sg }
          = sensitiveInfo (SignedTransfer.sign t privateKey))
    ∧ (∀ (r : Option Refund),
        SignedTransfer.verify { SignedTransfer.sign t privateKey with refund := r } = true) := by
  refine ⟨?_, ?_, ?_, ?_, ?_, ?_, ?_, ?_⟩
  · simp [SignedTransfer.verify, SignedTransfer.sign, cryptoVerify, cryptoSign, sensitiveInfo,
      haddr]
  · intro x hx
    simp [SignedTransfer.verify, SignedTransfer.sign, cryptoVerify, cryptoSign, sensitiveInfo,
      haddr, TransferCore.mk.injEq]
    intro hcon
    exact hx (haddr.trans hcon).symm
  · intro x hx
    simp [SignedTransfer.verify, SignedTransfer.sign, cryptoVerify, cryptoSign, sensitiveInfo,
      haddr, TransferCore.mk.injEq]
    intro hcon
    exact hx (congrArg TokenInfo.address hcon.symm)
  · intro x hx
    simp [SignedTransfer.verify, SignedTransfer.sign, cryptoVerify, cryptoSign, sensitiveInfo,
      haddr, TransferCore.mk.injEq]
    intro hcon
    exact hx (congrArg TokenInfo.amount hcon.symm)
  · intro x hx
    simp [SignedTransfer.verify, SignedTransfer.sign, cryptoVerify, cryptoSign, sensitiveInfo,
      haddr, TransferCore.mk.injEq]
    intro hcon
    exact hx (congrArg TargetChain.receiver hcon.symm)
  · intro x hx
    simp [SignedTransfer.verify, SignedTransfer.sign, cryptoVerify, cryptoSign, sensitiveInfo,
      haddr, TransferCore.mk.injEq]
    intro hcon
    exact hx (congrArg TargetChain.chainId hcon.symm)
  · intro r sg
    rfl
  · intro r
    simp [SignedTransfer.verify, SignedTransfer.sign, cryptoVerify, cryptoSign, sensitiveInfo,
      haddr]

/-- Witness for C7 at a concrete signed transfer: verification passes on
the untampered transfer and fails after the token amount is changed. -/
theorem signedTransfer_tamper_evidence_witness :
    SignedTransfer.verify (SignedTransfer.sign
      (⟨addressOf "pk", ⟨"T", 1⟩, ⟨1, "B"⟩, none, "raw"⟩ : Transfer String) "pk") = true
    ∧ SignedTransfer.verify { SignedTransfer.sign
      (⟨addressOf "pk", ⟨"T", 1⟩, ⟨1, "B"⟩, none, "raw"⟩ : Transfer String) "pk" with
        token := ⟨"T", 2⟩ } = false := by
  constructor
  · exact (signedTransfer_tamper_evidence
      (⟨addressOf "pk", ⟨"T", 1⟩, ⟨1, "B"⟩, none, "raw"⟩ : Transfer String) "pk" rfl).1
  · exact (signedTransfer_tamper_evidence
      (⟨addressOf "pk", ⟨"T", 1⟩, ⟨1, "B"⟩, none, "raw"⟩ : Transfer String) "pk" rfl).2.2.2.1
      2 (by decide)

lemma readBal_some (bals : List Balance) (a tok : String) (v : Int)
    (h : readBal bals a tok = some v) :
    ∃ b, (getBalancesForAddressAndToken bals a tok).head? = some b ∧ b.amount = v := by
  unfold readBal at h
  cases hb : (getBalancesForAddressAndToken bals a tok).head? with
  | none => rw [hb] at h; cases h
  | some b =>
      rw [hb] at h
      simp only [Option.map_some', Option.some.injEq] at h
      exact ⟨b, rfl, h⟩

/-- C1 (amended): for every accepted transfer whose sender differs from
its receiver, the stored sender balance after the commit is the balance
read under the lock minus the amount, the stored receiver balance after
is the balance read under the lock plus the amount, and their sum is
unchanged. -/
theorem transfer_conservation {σ : Type} (st st2 : RouteState) (t t2 : Transfer σ)
    (sb rb : Option Balance) (now : Nat) (txId refundSig : String)
    (hne : t.sender ≠ t.targetChain.receiver)
    (hrun : postTransferVerified st t now txId refundSig true = (st2, .accepted t2 sb rb)) :
    ∃ sB rB : Int,
      readBal st.db.balances t.sender t.token.address = some sB
      ∧ readBal st.db.balances t.targetChain.receiver t.token.address = some rB
      ∧ readBal st2.db.balances t.sender t.token.address = some (sB - t.token.amount)
      ∧ readBal st2.db.balances t.targetChain.receiver t.token.address
          = some (rB + t.token.amount)
      ∧ (sB - t.token.amount) + (rB + t.token.amount) = sB + rB := by
  obtain ⟨sbal, rbal, hsb, hrb, hsa, hst, hra, hrt, hlt, hck, hbal⟩ :=
    postTransferVerified_accepted st st2 t now txId refundSig true t2 sb rb hrun
  refine ⟨sbal.amount, rbal.amount, ?_, ?_, ?_, ?_, by ring⟩
  · unfold readBal
    rw [hsb]
    rfl
  · unfold readBal
    rw [hrb]
    rfl
  · unfold readBal
    rw [hbal, getBal_update_other _ _ _ _ _ _ (fun hcon => hne hcon.1.symm),
      getBal_update_self, List.head?_map, hsb]
    rfl
  · unfold readBal
    rw [hbal, getBal_update_self, getBal_update_other _ _ _ _ _ _ (fun hcon => hne hcon.1),
      List.head?_map, hrb]
    rfl

/-- C1 counterexample: an accepted self-transfer (sender equals receiver
on the same token).  The receiver-side write lands on the same row as the
sender-side write and overwrites it, so the row ends at 13 = 10 + 3,
not at 10 - 3 as the unrestricted conservation claim requires. -/
theorem transfer_conservation_self_counterexample :
    (postTransferVerified (⟨[], ⟨[⟨"A", "T", 10⟩], []⟩⟩ : RouteState)
        (⟨"A", ⟨"T", 3⟩, ⟨1, "A"⟩, none, "s"⟩ : Transfer String) 7 "id" "rs" true).snd.isAccepted
      = true
    ∧ readBal (⟨[⟨"A", "T", 10⟩], []⟩ : DBState).balances "A" "T" = some 10
    ∧ readBal (postTransferVerified (⟨[], ⟨[⟨"A", "T", 10⟩], []⟩⟩ : RouteState)
        (⟨"A", ⟨"T", 3⟩, ⟨1, "A"⟩, none, "s"⟩ : Transfer String) 7 "id" "rs"
        true).fst.db.balances "A" "T" = some 13
    ∧ ¬ ((13 : Int) = 10 - 3) := by
  refine ⟨rfl, rfl, ?_, by decide⟩
  decide

/-- Witness for the amended C1 at a concrete accepted transfer between
distinct parties. -/
theorem transfer_conservation_witness :
    ∃ sB rB : Int,
      readBal (⟨[⟨"A", "T", 10⟩, ⟨"B", "T", 5⟩], []⟩ : DBState).balances "A" "T" = some sB
      ∧ readBal (⟨[⟨"A", "T", 10⟩, ⟨"B", "T", 5⟩], []⟩ : DBState).balances "B" "T" = some rB
      ∧ readBal (postTransferVerified (⟨[], ⟨[⟨"A", "T", 10⟩, ⟨"B", "T", 5⟩], []⟩⟩ : RouteState)
          (⟨"A", ⟨"T", 3⟩, ⟨1, "B"⟩, none, "s"⟩ : Transfer String) 7 "id" "rs"
          true).fst.db.balances "A" "T" = some (sB - 3)
      ∧ readBal (postTransferVerified (⟨[], ⟨[⟨"A", "T", 10⟩, ⟨"B", "T", 5⟩], []⟩⟩ : RouteState)
          (⟨"A", ⟨"T", 3⟩, ⟨1, "B"⟩, none, "s"⟩ : Transfer String) 7 "id" "rs"
          true).fst.db.balances "B" "T" = some (rB + 3)
      ∧ (sB - 3) + (rB + 3) = sB + rB := by
  exact transfer_conservation (⟨[], ⟨[⟨"A", "T", 10⟩, ⟨"B", "T", 5⟩], []⟩⟩ : RouteState) _
    (⟨"A", ⟨"T", 3⟩, ⟨1, "B"⟩, none, "s"⟩ : Transfer String) _ _ _ 7 "id" "rs"
    (by decide) rfl

/-- C2: with the lock acquired and both balance rows read, a request whose
amount is at least the sender balance (equality included) is answered
insufficient funds with the lock key deleted and the database untouched,
for any commit outcome; and a run is accepted only when the amount is
strictly below the sender balance read under the lock. -/
theorem insufficient_funds_boundary {σ : Type} (st : RouteState) (t : Transfer σ)
    (now : Nat) (txId refundSig : String) (m1 : List (String × Bool)) (sB rB : Int)
    (hacq : compareAndSetValue st.lockMap (lockKeyOf t) true (fun lock => !lock) = (m1, true))
    (hs : readBal st.db.balances t.sender t.token.address = some sB)
    (hr : readBal st.db.balances t.targetChain.receiver t.token.address = some rB) :
    (sB ≤ t.token.amount →
      ∀ ck, postTransferVerified st t now txId refundSig ck
          = (⟨mapDelete m1 (lockKeyOf t), st.db⟩, .insufficientFunds)
        ∧ mapGet (mapDelete m1 (lockKeyOf t)) (lockKeyOf t) = none)
    ∧ (∀ ck st2 t2 sb rb,
        postTransferVerified st t now txId refundSig ck = (st2, .accepted t2 sb rb) →
        t.token.amount < sB) := by
  obtain ⟨sbal, hsb, hsamt⟩ := readBal_some _ _ _ _ hs
  obtain ⟨rbal, hrb, hramt⟩ := readBal_some _ _ _ _ hr
  constructor
  · intro hle ck
    refine ⟨?_, mapGet_delete_self m1 (lockKeyOf t)⟩
    simp only [postTransferVerified, lockKeyOf_refund]
    rw [hacq]
    simp only [hsb, hrb, eq_self_iff_true, if_true]
    rw [if_neg (by rw [hsamt]; exact not_lt.mpr hle)]
  · intro ck st2 t2 sb rb hrun
    obtain ⟨sbal2, _, hsb2, _, _, _, _, _, hlt, _, _⟩ :=
      postTransferVerified_accepted st st2 t now txId refundSig ck t2 sb rb hrun
    rw [hsb] at hsb2
    injection hsb2 with hsb3
    rw [← hsamt, hsb3]
    exact hlt

/-- Witness for C2 at a concrete request for the whole balance (amount
equals the sender balance): rejected, lock released, store unchanged. -/
theorem insufficient_funds_boundary_witness :
    (postTransferVerified (⟨[], ⟨[⟨"A", "T", 10⟩, ⟨"B", "T", 5⟩], []⟩⟩ : RouteState)
        (⟨"A", ⟨"T", 10⟩, ⟨1, "B"⟩, none, "s"⟩ : Transfer String) 7 "id" "rs" true
      = (⟨mapDelete (mapSet [] (lockKeyOf (⟨"A", ⟨"T", 10⟩, ⟨1, "B"⟩, none, "s"⟩ :
            Transfer String)) true)
          (lockKeyOf (⟨"A", ⟨"T", 10⟩, ⟨1, "B"⟩, none, "s"⟩ : Transfer String)),
         ⟨[⟨"A", "T", 10⟩, ⟨"B", "T", 5⟩], []⟩⟩, .insufficientFunds))
    ∧ mapGet (mapDelete (mapSet [] (lockKeyOf (⟨"A", ⟨"T", 10⟩, ⟨1, "B"⟩, none, "s"⟩ :
          Transfer String)) true)
        (lockKeyOf (⟨"A", ⟨"T", 10⟩, ⟨1, "B"⟩, none, "s"⟩ : Transfer String)))
        (lockKeyOf (⟨"A", ⟨"T", 10⟩, ⟨1, "B"⟩, none, "s"⟩ : Transfer String)) = none := by
  exact (insufficient_funds_boundary (⟨[], ⟨[⟨"A", "T", 10⟩, ⟨"B", "T", 5⟩], []⟩⟩ : RouteState)
    (⟨"A", ⟨"T", 10⟩, ⟨1, "B"⟩, none, "s"⟩ : Transfer String) 7 "id" "rs" _ 10 5
    rfl rfl rfl).1 (by decide) true

/-- C9: an accepted self-transfer (receiver equals sender, same token,
signature and sufficiency passing).  The receiver-side absolute write to
the shared row overwrites the sender-side write, leaving the single row
at its initial amount plus the transfer amount, so the token supply grows
by the amount instead of being conserved. -/
theorem self_transfer_inflates_supply {σ : Type} (st : RouteState) (t : Transfer σ)
    (now : Nat) (txId refundSig : String) (m1 : List (String × Bool)) (b : Balance)
    (heq : t.targetChain.receiver = t.sender)
    (hacq : compareAndSetValue st.lockMap (lockKeyOf t) true (fun lock => !lock) = (m1, true))
    (hrow : getBalancesForAddressAndToken st.db.balances t.sender t.token.address = [b])
    (hlt : t.token.amount < b.amount) :
    (postTransferVerified st t now txId refundSig true).snd.isAccepted = true
    ∧ readBal (postTransferVerified st t now txId refundSig true).fst.db.balances
        t.sender t.token.address = some (b.amount + t.token.amount)
    ∧ tokenSupply (postTransferVerified st t now txId refundSig true).fst.db.balances
        t.token.address
      = tokenSupply st.db.balances t.token.address + t.token.amount := by
  have hhead : (getBalancesForAddressAndToken st.db.balances t.sender t.token.address).head?
      = some b := by rw [hrow]; rfl
  have hhead2 : (getBalancesForAddressAndToken st.db.balances t.targetChain.receiver
      t.token.address).head? = some b := by rw [heq, hrow]; rfl
  have hb1 := head_filter_key _ _ _ _ hhead
  have houtsnd : (postTransferVerified st t now txId refundSig true).snd.isAccepted = true := by
    simp only [postTransferVerified, lockKeyOf_refund]
    rw [hacq]
    simp only [hhead, hhead2, eq_self_iff_true, if_true]
    rw [if_pos hlt]
    rfl
  have houtbal : (postTransferVerified st t now txId refundSig true).fst.db.balances
      = updateBalance (updateBalance st.db.balances b.address t.token.address
          (b.amount - t.token.amount)) b.address t.token.address
          (b.amount + t.token.amount) := by
    simp only [postTransferVerified, lockKeyOf_refund]
    rw [hacq]
    simp only [hhead, hhead2, eq_self_iff_true, if_true]
    rw [if_pos hlt]
    simp only [DB.transfer]
  rw [houtbal, updateBalance_same_key]
  refine ⟨houtsnd, ?_, ?_⟩
  · unfold readBal
    rw [← hb1.1, getBal_update_self, List.head?_map]
    rw [hb1.1, hhead]
    rfl
  · rw [tokenSupply_update st.db.balances b.address t.token.address
      (b.amount + t.token.amount) b (by rw [hb1.1]; exact hrow)]
    omega

/-- Witness for C9 at a concrete accepted self-transfer: the row rises
from 10 to 13 and the supply of token T rises by 3. -/
theorem self_transfer_inflates_supply_witness :
    (postTransferVerified (⟨[], ⟨[⟨"A", "T", 10⟩], []⟩⟩ : RouteState)
        (⟨"A", ⟨"T", 3⟩, ⟨1, "A"⟩, none, "s"⟩ : Transfer String) 7 "id" "rs" true).snd.isAccepted
      = true
    ∧ readBal (postTransferVerified (⟨[], ⟨[⟨"A", "T", 10⟩], []⟩⟩ : RouteState)
        (⟨"A", ⟨"T", 3⟩, ⟨1, "A"⟩, none, "s"⟩ : Transfer String) 7 "id" "rs"
        true).fst.db.balances "A" "T" = some (10 + 3)
    ∧ tokenSupply (postTransferVerified (⟨[], ⟨[⟨"A", "T", 10⟩], []⟩⟩ : RouteState)
        (⟨"A", ⟨"T", 3⟩, ⟨1, "A"⟩, none, "s"⟩ : Transfer String) 7 "id" "rs"
        true).fst.db.balances "T"
      = tokenSupply (⟨[⟨"A", "T", 10⟩], []⟩ : DBState).balances "T" + 3 := by
  exact self_transfer_inflates_supply (⟨[], ⟨[⟨"A", "T", 10⟩], []⟩⟩ : RouteState)
    (⟨"A", ⟨"T", 3⟩, ⟨1, "A"⟩, none, "s"⟩ : Transfer String) 7 "id" "rs" _ ⟨"A", "T", 10⟩
    rfl rfl rfl (by decide)

/-- C8 counterexample: a payload with sender and signature strings but no
token member at all.  isValidTransfer evaluates obj.token.address, which
throws a TypeError; the route catch answers an internal error (500), not
the invalid-shape rejection (400) the claim states for this payload. -/
theorem shape_validation_missing_token_counterexample :
    postTransfer (⟨[], ⟨[], []⟩⟩ : RouteState)
        (.vobj [("sender", .vstr "0xA"), ("signature", .vstr "s")])
        (fun _ => true) 5 "id" "rs" true
      = ((⟨[], ⟨[], []⟩⟩ : RouteState), .internalError)
    ∧ (TransferResponse.internalError : TransferResponse String)
        ≠ TransferResponse.invalidRequest := by
  exact ⟨rfl, by decide⟩

/-- C8 (amended): shape-validation outcomes of the handler.  Any failed
check leaves the process state untouched (no side effects, no lock).
Wrong or missing sender or signature, and missing or mistyped fields
inside a present token or targetChain object, are rejected as invalid
shape (400); but a payload whose token or targetChain member is absent
(or null) while the checks before it pass makes the unguarded nested
property access throw a TypeError, which the catch maps to an internal
error (500) instead. -/
theorem shape_validation_outcomes (st : RouteState) (verify : Transfer String → Bool)
    (now : Nat) (txId refundSig : String) (ck : Bool)
    (fields : List (String × JsValue)) :
    (∀ body : JsValue, isValidTransfer body = .ok false →
        postTransfer st body verify now txId refundSig ck = (st, .invalidRequest))
    ∧ (∀ body : JsValue, isValidTransfer body = .error () →
        postTransfer st body verify now txId refundSig ck = (st, .internalError))
    ∧ (typeOfIsString (lookupD fields "sender") = false →
        postTransfer st (.vobj fields) verify now txId refundSig ck = (st, .invalidRequest))
    ∧ (typeOfIsString (lookupD fields "sender") = true →
        (lookupD fields "token" = .vundef ∨ lookupD fields "token" = .vnull) →
        postTransfer st (.vobj fields) verify now txId refundSig ck = (st, .internalError))
    ∧ (typeOfIsString (lookupD fields "sender") = true →
        lookupD fields "token" ≠ .vundef → lookupD fields "token" ≠ .vnull →
        typeOfIsString (jsProp (lookupD fields "token") "address") = false →
        postTransfer st (.vobj fields) verify now txId refundSig ck = (st, .invalidRequest))
    ∧ (typeOfIsString (lookupD fields "sender") = true →
        lookupD fields "token" ≠ .vundef → lookupD fields "token" ≠ .vnull →
        typeOfIsString (jsProp (lookupD fields "token") "address") = true →
        typeOfIsNumber (jsProp (lookupD fields "token") "amount") = false →
        postTransfer st (.vobj fields) verify now txId refundSig ck = (st, .invalidRequest))
    ∧ (typeOfIsString (lookupD fields "sender") = true →
        lookupD fields "token" ≠ .vundef → lookupD fields "token" ≠ .vnull →
        typeOfIsString (jsProp (lookupD fields "token") "address") = true →
        typeOfIsNumber (jsProp (lookupD fields "token") "amount") = true →
        (lookupD fields "targetChain" = .vundef ∨ lookupD fields "targetChain" = .vnull) →
        postTransfer st (.vobj fields) verify now txId refundSig ck = (st, .internalError))
    ∧ (typeOfIsString (lookupD fields "sender") = true →
        lookupD fields "token" ≠ .vundef → lookupD fields "token" ≠ .vnull →
        typeOfIsString (jsProp (lookupD fields "token") "address") = true →
        typeOfIsNumber (jsProp (lookupD fields "token") "amount") = true →
        lookupD fields "targetChain" ≠ .vundef → lookupD fields "targetChain" ≠ .vnull →
        typeOfIsString (jsProp (lookupD fields "targetChain") "receiver") = false →
        postTransfer st (.vobj fields) verify now txId refundSig ck = (st, .invalidRequest))
    ∧ (typeOfIsString (lookupD fields "sender") = true →
        lookupD fields "token" ≠ .vundef → lookupD fields "token" ≠ .vnull →
        typeOfIsString (jsProp (lookupD fields "token") "address") = true →
        typeOfIsNumber (jsProp (lookupD fields "token") "amount") = true →
        lookupD fields "targetChain" ≠ .vundef → lookupD fields "targetChain" ≠ .vnull →
        typeOfIsString (jsProp (lookupD fields "targetChain") "receiver") = true →
        typeOfIsString (lookupD fields "signature") = false →
        postTransfer st (.vobj fields) verify now txId refundSig ck = (st, .invalidRequest)) := by
  have hok : ∀ body : JsValue, isValidTransfer body = .ok false →
      postTransfer st body verify now txId refundSig ck = (st, .invalidRequest) := by
    intro body h
    simp [postTransfer, h]
  have herr : ∀ body : JsValue, isValidTransfer body = .error () →
      postTransfer st body verify now txId refundSig ck = (st, .internalError) := by
    intro body h
    simp [postTransfer, h]
  refine ⟨hok, herr, ?_, ?_, ?_, ?_, ?_, ?_, ?_⟩
  · intro hsender
    exact hok _ (by simp [isValidTransfer, hsender])
  · rintro hsender (htok | htok)
    · exact herr _ (by simp [isValidTransfer, hsender, htok])
    · exact herr _ (by simp [isValidTransfer, hsender, htok])
  · intro hsender hnu hnn haddr
    refine hok _ ?_
    cases htok : lookupD fields "token" with
    | vundef => exact absurd htok hnu
    | vnull => exact absurd htok hnn
    | vstr s₀ => rw [htok] at haddr; simp [isValidTransfer, hsender, htok, haddr]
    | vnum n₀ => rw [htok] at haddr; simp [isValidTransfer, hsender, htok, haddr]
    | vbool b₀ => rw [htok] at haddr; simp [isValidTransfer, hsender, htok, haddr]
    | vobj tf => rw [htok] at haddr; simp [isValidTransfer, hsender, htok, haddr]
  · intro hsender hnu hnn haddr hamt
    refine hok _ ?_
    cases htok : lookupD fields "token" with
    | vundef => exact absurd htok hnu
    | vnull => exact absurd htok hnn
    | vstr s₀ => rw [htok] at haddr hamt; simp [isValidTransfer, hsender, htok, haddr, hamt]
    | vnum n₀ => rw [htok] at haddr hamt; simp [isValidTransfer, hsender, htok, haddr, hamt]
    | vbool b₀ => rw [htok] at haddr hamt; simp [isValidTransfer, hsender, htok, haddr, hamt]
    | vobj tf => rw [htok] at haddr hamt; simp [isValidTransfer, hsender, htok, haddr, hamt]
  · intro hsender hnu hnn haddr hamt htc
    refine herr _ ?_
    cases htok : lookupD fields "token" with
    | vundef => exact absurd htok hnu
    | vnull => exact absurd htok hnn
    | vstr s₀ =>
        rw [htok] at haddr hamt
        rcases htc with htc | htc <;>
          simp [isValidTransfer, hsender, htok, haddr, hamt, htc]
    | vnum n₀ =>
        rw [htok] at haddr hamt
        rcases htc with htc | htc <;>
          simp [isValidTransfer, hsender, htok, haddr, hamt, htc]
    | vbool b₀ =>
        rw [htok] at haddr hamt
        rcases htc with htc | htc <;>
          simp [isValidTransfer, hsender, htok, haddr, hamt, htc]
    | vobj tf =>
        rw [htok] at haddr hamt
        rcases htc with htc | htc <;>
          simp [isValidTransfer, hsender, htok, haddr, hamt, htc]
  · intro hsender hnu hnn haddr hamt hnu2 hnn2 hrecv
    refine hok _ ?_
    cases htok : lookupD fields "token" with
    | vundef => exact absurd htok hnu
    | vnull => exact absurd htok hnn
    | vstr s₀ => rw [htok] at haddr; simp [jsProp, typeOfIsString] at haddr
    | vnum n₀ => rw [htok] at haddr; simp [jsProp, typeOfIsString] at haddr
    | vbool b₀ => rw [htok] at haddr; simp [jsProp, typeOfIsString] at haddr
    | vobj tf =>
        rw [htok] at haddr hamt
        cases htc : lookupD fields "targetChain" with
        | vundef => exact absurd htc hnu2
        | vnull => exact absurd htc hnn2
        | vstr s₁ =>
            rw [htc] at hrecv
            simp [isValidTransfer, hsender, htok, haddr, hamt, htc, hrecv]
        | vnum n₁ =>
            rw [htc] at hrecv
            simp [isValidTransfer, hsender, htok, haddr, hamt, htc, hrecv]
        | vbool b₁ =>
            rw [htc] at hrecv
            simp [isValidTransfer, hsender, htok, haddr, hamt, htc, hrecv]
        | vobj cf =>
            rw [htc] at hrecv
            simp [isValidTransfer, hsender, htok, haddr, hamt, htc, hrecv]
  · intro hsender hnu hnn haddr hamt hnu2 hnn2 hrecv hsig
    refine hok _ ?_
    cases htok : lookupD fields "token" with
    | vundef => exact absurd htok hnu
    | vnull => exact absurd htok hnn
    | vstr s₀ => rw [htok] at haddr; simp [jsProp, typeOfIsString] at haddr
    | vnum n₀ => rw [htok] at haddr; simp [jsProp, typeOfIsString] at haddr
    | vbool b₀ => rw [htok] at haddr; simp [jsProp, typeOfIsString] at haddr
    | vobj tf =>
        rw [htok] at haddr hamt
        cases htc : lookupD fields "targetChain" with
        | vundef => exact absurd htc hnu2
        | vnull => exact absurd htc hnn2
        | vstr s₁ => rw [htc] at hrecv; simp [jsProp, typeOfIsString] at hrecv
        | vnum n₁ => rw [htc] at hrecv; simp [jsProp, typeOfIsString] at hrecv
        | vbool b₁ => rw [htc] at hrecv; simp [jsProp, typeOfIsString] at hrecv
        | vobj cf =>
            rw [htc] at hrecv
            simp [isValidTransfer, hsender, htok, haddr, hamt, htc, hrecv, hsig]

/-- Witness for the amended C8: both outcome categories at concrete
payloads — missing token throws into the internal-error category with the
state untouched, and a mistyped token amount is rejected as invalid
shape with the state untouched. -/
theorem shape_validation_outcomes_witness :
    postTransfer (⟨[("lk", true)], ⟨[⟨"A", "T", 1⟩], []⟩⟩ : RouteState)
        (.vobj [("sender", .vstr "0xB"), ("signature", .vstr "s")])
        (fun _ => true) 5 "id" "rs" true
      = ((⟨[("lk", true)], ⟨[⟨"A", "T", 1⟩], []⟩⟩ : RouteState), .internalError)
    ∧ postTransfer (⟨[("lk", true)], ⟨[⟨"A", "T", 1⟩], []⟩⟩ : RouteState)
        (.vobj [("sender", .vstr "0xB"),
          ("token", .vobj [("address", .vstr "T"), ("amount", .vstr "3")]),
          ("targetChain", .vobj [("chainId", .vnum 1), ("receiver", .vstr "C")]),
          ("signature", .vstr "s")])
        (fun _ => true) 5 "id" "rs" true
      = ((⟨[("lk", true)], ⟨[⟨"A", "T", 1⟩], []⟩⟩ : RouteState), .invalidRequest) := by
  constructor
  · exact (shape_validation_outcomes (⟨[("lk", true)], ⟨[⟨"A", "T", 1⟩], []⟩⟩ : RouteState)
      (fun _ => true) 5 "id" "rs" true
      [("sender", .vstr "0xB"), ("signature", .vstr "s")]).2.2.2.1 rfl (Or.inl rfl)
  · exact (shape_validation_outcomes (⟨[("lk", true)], ⟨[⟨"A", "T", 1⟩], []⟩⟩ : RouteState)
      (fun _ => true) 5 "id" "rs" true
      [("sender", .vstr "0xB"),
        ("token", .vobj [("address", .vstr "T"), ("amount", .vstr "3")]),
        ("targetChain", .vobj [("chainId", .vnum 1), ("receiver", .vstr "C")]),
        ("signature", .vstr "s")]).2.2.2.2.2.1 rfl (fun hcon => JsValue.noConfusion hcon)
      (fun hcon => JsValue.noConfusion hcon) rfl rfl

/-- C5: on a store whose transactions are a chronological history of
non-reverted transfers applied from initial balances b0 (strictly
increasing timestamps; one balance row per (address, token), as the
schema's primary key guarantees), revertAll fetches exactly the
not-reverted transactions most-recent-first, reverts them in that order —
each step adding the amount back to the sender balance and subtracting it
from the receiver balance — flags every one reverted, and leaves the
balances equal to their state before the earliest transaction. -/
theorem revertAll_restores_history (b0 cur : List Balance) (h : List Transaction)
    (hu : uniqueKeys b0)
    (hasc : h.Pairwise (fun a b => a.tx_ts < b.tx_ts))
    (hnr : ∀ t ∈ h, t.reverted = false)
    (happ : applyHistory b0 h = some cur) :
    pendingTransactions ⟨cur, h⟩ = h.reverse
    ∧ revertTransactions ⟨cur, h⟩
        = (⟨b0, h.map (fun t => { t with reverted := true })⟩, h.reverse, true)
    ∧ (∀ (bals : List Balance) (t : Transaction) (b c : Balance),
        (getBalancesForAddressAndToken bals t.sender t.token).head? = some b →
        (getBalancesForAddressAndToken bals t.receiver t.token).head? = some c →
        t.sender ≠ t.receiver →
        ∃ bals2, revertOne bals t = some bals2
          ∧ readBal bals2 t.sender t.token = some (b.amount + t.amount)
          ∧ readBal bals2 t.receiver t.token = some (c.amount - t.amount)) := by
  refine ⟨?_, revertTransactions_history b0 cur h hu hasc hnr happ, ?_⟩
  · show sortByTsDesc (h.filter (fun t => !t.reverted)) = h.reverse
    rw [filter_not_reverted_self h hnr, sortByTsDesc_eq_reverse h hasc]
  · intro bals t b c hb hc hne
    have hrone : revertOne bals t = some (updateBalance
        (updateBalance bals t.sender t.token (b.amount + t.amount))
        t.receiver t.token (c.amount - t.amount)) := by
      unfold revertOne
      rw [hb, hc]
      rfl
    refine ⟨_, hrone, ?_, ?_⟩
    · unfold readBal
      rw [getBal_update_other _ _ _ _ _ _ (fun hcon => hne hcon.1.symm),
        getBal_update_self, List.head?_map, hb]
      rfl
    · unfold readBal
      rw [getBal_update_self, getBal_update_other _ _ _ _ _ _ (fun hcon => hne hcon.1),
        List.head?_map, hc]
      rfl

/-- Witness for C5: the spec scenario of three transactions [t3, t2, t1]
most-recent-first; after revertAll all three are flagged and the balances
return to 128 and 512. -/
theorem revertAll_restores_history_witness :
    revertTransactions ⟨[⟨"A", "T", 132⟩, ⟨"B", "T", 508⟩],
        [⟨1, "i1", "A", "B", "T", 4, false⟩, ⟨2, "i2", "A", "B", "T", 8, false⟩,
         ⟨3, "i3", "B", "A", "T", 16, false⟩]⟩
      = (⟨[⟨"A", "T", 128⟩, ⟨"B", "T", 512⟩],
          [⟨1, "i1", "A", "B", "T", 4, true⟩, ⟨2, "i2", "A", "B", "T", 8, true⟩,
           ⟨3, "i3", "B", "A", "T", 16, true⟩]⟩,
         [⟨3, "i3", "B", "A", "T", 16, false⟩, ⟨2, "i2", "A", "B", "T", 8, false⟩,
          ⟨1, "i1", "A", "B", "T", 4, false⟩], true) := by
  exact (revertAll_restores_history [⟨"A", "T", 128⟩, ⟨"B", "T", 512⟩]
    [⟨"A", "T", 132⟩, ⟨"B", "T", 508⟩]
    [⟨1, "i1", "A", "B", "T", 4, false⟩, ⟨2, "i2", "A", "B", "T", 8, false⟩,
     ⟨3, "i3", "B", "A", "T", 16, false⟩]
    (by decide) (by decide) (by decide) rfl).2.1

/-- C6: reverting is applied at most once per transaction row.  After a
full successful revertAll every stored transaction is flagged and a
re-invocation fetches nothing and changes nothing; after a partial run
(the first k atomic units, here the reversal of the most recent part h2
of the history), re-invoking revertAll fetches exactly the remaining
transactions and ends in the same final state as the uninterrupted run —
no reversal is applied twice. -/
theorem revertAll_idempotent (b0 mid cur : List Balance) (h1 h2 : List Transaction)
    (hu : uniqueKeys b0)
    (hasc : (h1 ++ h2).Pairwise (fun a b => a.tx_ts < b.tx_ts))
    (hnr : ∀ t ∈ h1 ++ h2, t.reverted = false)
    (hids : ((h1 ++ h2).map Transaction.tx_id).Nodup)
    (h1app : applyHistory b0 h1 = some mid)
    (h2app : applyHistory mid h2 = some cur) :
    revertTransactions ⟨cur, h1 ++ h2⟩
        = (⟨b0, (h1 ++ h2).map (fun t => { t with reverted := true })⟩,
           (h1 ++ h2).reverse, true)
    ∧ revertTransactions ⟨b0, (h1 ++ h2).map (fun t => { t with reverted := true })⟩
        = (⟨b0, (h1 ++ h2).map (fun t => { t with reverted := true })⟩, [], true)
    ∧ (revertLoop ⟨cur, h1 ++ h2⟩
          ((pendingTransactions ⟨cur, h1 ++ h2⟩).take h2.length)).fst
        = ⟨mid, markAll (h1 ++ h2) h2.reverse⟩
    ∧ revertTransactions ⟨mid, markAll (h1 ++ h2) h2.reverse⟩
        = (⟨b0, (h1 ++ h2).map (fun t => { t with reverted := true })⟩,
           h1.reverse, true) := by
  have happ : applyHistory b0 (h1 ++ h2) = some cur := by
    rw [applyHistory_append, h1app]
    simpa using h2app
  have hpend : pendingTransactions ⟨cur, h1 ++ h2⟩ = (h1 ++ h2).reverse := by
    show sortByTsDesc ((h1 ++ h2).filter (fun t => !t.reverted)) = (h1 ++ h2).reverse
    rw [filter_not_reverted_self _ hnr, sortByTsDesc_eq_reverse _ hasc]
  have humid : uniqueKeys mid := uniqueKeys_applyHistory h1 b0 mid hu h1app
  refine ⟨revertTransactions_history b0 cur (h1 ++ h2) hu hasc hnr happ, ?_, ?_, ?_⟩
  · have hpend2 : pendingTransactions
        ⟨b0, (h1 ++ h2).map (fun t => { t with reverted := true })⟩ = [] := by
      show sortByTsDesc (((h1 ++ h2).map (fun t => { t with reverted := true })).filter
        (fun t => !t.reverted)) = []
      rw [List.filter_eq_nil_iff.mpr (fun x hx => by
        obtain ⟨u, hu3, rfl⟩ := List.mem_map.mp hx
        simp)]
      rfl
    unfold revertTransactions
    rw [hpend2]
    rfl
  · have htake : ((h1 ++ h2).reverse).take h2.length = h2.reverse := by
      rw [List.reverse_append]
      have := List.take_left h2.reverse h1.reverse
      rwa [List.length_reverse] at this
    have hloop2 : revertLoop ⟨cur, h1 ++ h2⟩ h2.reverse
        = (⟨mid, markAll (h1 ++ h2) h2.reverse⟩, true) :=
      revertLoop_applyHistory h2 mid cur (h1 ++ h2) humid h2app
    rw [hpend, htake, hloop2]
  · have hpend3 : pendingTransactions ⟨mid, markAll (h1 ++ h2) h2.reverse⟩
        = h1.reverse := by
      show sortByTsDesc ((markAll (h1 ++ h2) h2.reverse).filter (fun t => !t.reverted))
        = h1.reverse
      rw [filter_after_marked_suffix h1 h2 hnr hids,
        sortByTsDesc_eq_reverse h1 (List.pairwise_append.mp hasc).1]
    have hloop3 : revertLoop ⟨mid, markAll (h1 ++ h2) h2.reverse⟩ h1.reverse
        = (⟨b0, markAll (markAll (h1 ++ h2) h2.reverse) h1.reverse⟩, true) :=
      revertLoop_applyHistory h1 b0 mid (markAll (h1 ++ h2) h2.reverse) hu h1app
    unfold revertTransactions
    rw [hpend3]
    simp only [hloop3, markAll_twice]

/-- Witness for C6: after reverting only the two most recent of three
transactions, re-invoking revertAll fetches exactly the remaining oldest
one and ends in the fully-restored, fully-flagged state. -/
theorem revertAll_idempotent_witness :
    revertTransactions ⟨[⟨"A", "T", 124⟩, ⟨"B", "T", 516⟩],
        [⟨1, "i1", "A", "B", "T", 4, false⟩, ⟨2, "i2", "A", "B", "T", 8, true⟩,
         ⟨3, "i3", "B", "A", "T", 16, true⟩]⟩
      = (⟨[⟨"A", "T", 128⟩, ⟨"B", "T", 512⟩],
          [⟨1, "i1", "A", "B", "T", 4, true⟩, ⟨2, "i2", "A", "B", "T", 8, true⟩,
           ⟨3, "i3", "B", "A", "T", 16, true⟩]⟩,
         [⟨1, "i1", "A", "B", "T", 4, false⟩], true) := by
  exact (revertAll_idempotent [⟨"A", "T", 128⟩, ⟨"B", "T", 512⟩]
    [⟨"A", "T", 124⟩, ⟨"B", "T", 516⟩] [⟨"A", "T", 132⟩, ⟨"B", "T", 508⟩]
    [⟨1, "i1", "A", "B", "T", 4, false⟩]
    [⟨2, "i2", "A", "B", "T", 8, false⟩, ⟨3, "i3", "B", "A", "T", 16, false⟩]
    (by decide) (by decide) (by decide) (by decide) rfl rfl).2.2.2

end OB
